import Mathlib

/-
  Verification of the world/entity simulation core of the `survivor` game
  (chunk-based procedural generation, entity lifecycle and spatial index,
  animal AI state machine).

  The embedding follows the TypeScript source:
    * `World.seededRandom`, `World.generateTreesForChunk`,
      `World.generateAnimalsForChunk`, `World.getTerrainHeight`,
      `World.unloadChunk` (src/core/World.ts);
    * `EntityManager.addEntity`, `removeEntity`, `getEntitiesInRadius`,
      `getInteractablesInRadius`, `update`, `updateEntityChunk`,
      `getChunkKey` (src/systems/EntityManager.ts);
    * `Entity.takeDamage` (src/entities/Entity.ts);
    * `Animal` constructor and `Animal.update` (src/entities/Animal.ts),
      with the `Rabbit` configuration (src/entities/Rabbit.ts).

  Modelling conventions:
    * JavaScript numbers are idealised as rationals `ℚ` (exact arithmetic)
      except in the Animal module, which needs square roots and therefore
      works over `ℝ`, and in the NaN module, where a number is
      `JsNum = nan | val ℚ`.
    * The bitwise seed mixing `chunkX * 73856093 ^ chunkZ * 19349663` uses
      JavaScript 32-bit semantics, modelled explicitly on `Int`.
    * `Math.sin` is a fixed pure function of its (always integral) argument;
      it is threaded through the generator as an explicit oracle
      `sin : Int → ℚ`, so every theorem quantifies over it.
    * Square roots that the source only compares against a constant
      (`Math.sqrt d2 < c`) are expressed by the equivalent square-free
      comparison `0 < c ∧ d2 < c^2`.
    * `Entity.generateId` produces fresh opaque string ids; ids are modelled
      as naturals handed out by a counter where freshness matters.
    * Scene / mesh objects are opaque `Nat` handles; rendering-only steps
      (shadows, materials, bounding boxes) are omitted.
-/

namespace Survivor

/-! ## JavaScript 32-bit integer semantics -/

/-- ToInt32: wrap an integer into the signed 32-bit range, as JavaScript
bitwise operators do with their operands and result. -/
def toInt32 (n : Int) : Int :=
  let m := n % 4294967296
  if m < 2147483648 then m else m - 4294967296

/-- JavaScript `a ^ b` (bitwise xor): both operands are converted with
ToInt32 (equivalently, reduced mod 2^32 to their bit pattern), xor-ed,
and the result is read back as a signed 32-bit integer. -/
def jsXor (a b : Int) : Int :=
  toInt32 (Int.ofNat (Nat.xor ((a % 4294967296).toNat) ((b % 4294967296).toNat)))

/-! ## Deterministic chunk generator (src/core/World.ts)

`CHUNK_SIZE = 50`, `TREE_DENSITY = 20`. -/

/-- World.seededRandom: `frac (Math.sin seed * 10000)`.  Every call site
passes an integer seed, so the oracle for `Math.sin` has type `Int → ℚ`. -/
def seededRandom (sin : Int → ℚ) (seed : Int) : ℚ :=
  let x := sin seed * 10000
  x - ⌊x⌋

/-- World.getTerrainHeight: flat terrain, always 0. -/
def getTerrainHeight (_x _z : ℚ) : ℚ := 0

/-- Chunk seed: `chunkX * 73856093 ^ chunkZ * 19349663` with JavaScript
32-bit xor semantics. -/
def chunkSeed (chunkX chunkZ : Int) : Int :=
  jsXor (chunkX * 73856093) (chunkZ * 19349663)

/-- Math.sqrt d2 < c, for a nonnegative radicand, stated without square
roots: the square root of `d2` is below `c` iff `c` is positive and `d2`
is below `c^2`. -/
def sqrtLt (d2 c : ℚ) : Bool :=
  decide (0 < c ∧ d2 < c ^ 2)

/-- Kind of a generated spawn, with the data the spec calls layout content:
trees carry their scale, animals their species. -/
inductive SpawnKind where
  | tree (scale : ℚ)
  | deer
  | rabbit
deriving DecidableEq, Repr

/-- One spawned entity as produced by chunk generation: kind and world
position. -/
structure SpawnRec where
  kind : SpawnKind
  x : ℚ
  y : ℚ
  z : ℚ
deriving DecidableEq, Repr

/-- World.generateTreesForChunk, as the list of tree spawns it registers
(in loop order).  A loop iteration that hits the spawn-safety `continue`
contributes nothing. -/
def generateTreesForChunk (sin : Int → ℚ) (chunkX chunkZ : Int) : List SpawnRec :=
  let worldX : ℚ := chunkX * 50
  let worldZ : ℚ := chunkZ * 50
  let seed := chunkSeed chunkX chunkZ
  (List.range 20).filterMap (fun i =>
    let randX := seededRandom sin (seed + i * 2)
    let randZ := seededRandom sin (seed + i * 2 + 1)
    let randScale := seededRandom sin (seed + i * 3)
    let randType := seededRandom sin (seed + i * 4)
    let localX := (randX - 1/2) * 50 * (9/10)
    let localZ := (randZ - 1/2) * 50 * (9/10)
    let x := worldX + localX
    let z := worldZ + localZ
    if chunkX = 0 ∧ chunkZ = 0 ∧ sqrtLt (localX * localX + localZ * localZ) 10 then
      none
    else
      let scale : ℚ :=
        if randType < 15/100 then 2/10 + randScale * 3/10
        else if randType < 35/100 then 5/10 + randScale * 5/10
        else if randType < 70/100 then 1 + randScale * 6/10
        else if randType < 90/100 then 16/10 + randScale * 8/10
        else 24/10 + randScale * 16/10
      some ⟨SpawnKind.tree scale, x, getTerrainHeight x z, z⟩)

/-- World.generateAnimalsForChunk, as the list of animal spawns it
registers (in loop order). -/
def generateAnimalsForChunk (sin : Int → ℚ) (chunkX chunkZ : Int) : List SpawnRec :=
  let worldX : ℚ := chunkX * 50
  let worldZ : ℚ := chunkZ * 50
  let seed := chunkSeed chunkX chunkZ
  let animalCount := (2 + ⌊seededRandom sin seed * 4⌋).toNat
  (List.range animalCount).filterMap (fun i =>
    let randX := seededRandom sin (seed + i * 10 + 100)
    let randZ := seededRandom sin (seed + i * 10 + 101)
    let randType := seededRandom sin (seed + i * 10 + 102)
    let localX := (randX - 1/2) * 50 * (8/10)
    let localZ := (randZ - 1/2) * 50 * (8/10)
    let x := worldX + localX
    let z := worldZ + localZ
    if chunkX = 0 ∧ chunkZ = 0 ∧ sqrtLt (localX * localX + localZ * localZ) 15 then
      none
    else
      let kind := if randType < 6/10 then SpawnKind.deer else SpawnKind.rabbit
      some ⟨kind, x, getTerrainHeight x z, z⟩)

/-- All spawns registered while generating one chunk, in registration
order: World.generateChunk generates trees, then animals. -/
def generateChunkSpawns (sin : Int → ℚ) (chunkX chunkZ : Int) : List SpawnRec :=
  generateTreesForChunk sin chunkX chunkZ ++ generateAnimalsForChunk sin chunkX chunkZ

/-- A run of chunk-generation requests: each requested coordinate paired
with the content produced for it, in request order.  Distinct runs model
independent invocations of the generator. -/
def generateRun (sin : Int → ℚ) (coords : List (Int × Int)) :
    List ((Int × Int) × List SpawnRec) :=
  coords.map (fun c => (c, generateChunkSpawns sin c.1 c.2))

/-! ## Entity lifecycle manager and spatial index (src/systems/EntityManager.ts)

The entity map `Map<string, Entity>` is an insertion-ordered association
list (JavaScript Map semantics); `entitiesByChunk : Map<string, Set<string>>`
likewise, with each bucket an insertion-ordered duplicate-free id list.
The chunk key `"${Math.floor(x/50)},${Math.floor(z/50)}"` is modelled as
the pair of the two integers (the string encoding is injective). -/

/-- A world position (THREE.Vector3). -/
structure Pos where
  x : ℚ
  y : ℚ
  z : ℚ
deriving DecidableEq, Repr

/-- Squared Euclidean distance between two positions. -/
def Pos.dist2 (p q : Pos) : ℚ :=
  (p.x - q.x) ^ 2 + (p.y - q.y) ^ 2 + (p.z - q.z) ^ 2

/-- Entity.isWithinRadius: `position.distanceTo(q) ≤ r`, stated without the
square root (the distance is `Math.sqrt dist2`, and `√d ≤ r ↔ 0 ≤ r ∧ d ≤ r^2`
for a nonnegative radicand). -/
def withinRadius (p q : Pos) (r : ℚ) : Bool :=
  decide (0 ≤ r ∧ Pos.dist2 p q ≤ r ^ 2)

/-- The fields of the abstract Entity base class that the lifecycle manager
and the damage logic read or write.  `dieCount` instruments how many times
the `die()` hook has run (it is not a source field).  Mesh and bounding box
are rendering state and are omitted. -/
structure Entity where
  id : Nat
  pos : Pos
  health : ℚ
  maxHealth : ℚ
  isDead : Bool
  isInteractable : Bool
  chunkKey : Option (Int × Int)
  dieCount : Nat
deriving DecidableEq, Repr

/-- EntityManager.getChunkKey: chunk coordinates of a world position,
`CHUNK_SIZE = 50`. -/
def getChunkKey (x z : ℚ) : Int × Int :=
  (⌊x / 50⌋, ⌊z / 50⌋)

/-- The EntityManager state: the id → entity map and the chunk-key → id-set
spatial index. -/
structure EntityManager where
  entities : List Entity
  entitiesByChunk : List ((Int × Int) × List Nat)
deriving DecidableEq, Repr

/-- The manager in its initial state. -/
def EntityManager.empty : EntityManager := ⟨[], []⟩

/-- Map.set on the entity map: replace the entity stored under `id`, or
append it if the id is new. -/
def setEntity (id : Nat) (e : Entity) (l : List Entity) : List Entity :=
  if l.any (fun x => decide (x.id = id)) then
    l.map (fun x => if x.id = id then e else x)
  else
    l ++ [e]

/-- Add an id to the bucket stored under `k`, creating the bucket if absent
(Set.add semantics: no duplicate ids). -/
def bucketAdd (bs : List ((Int × Int) × List Nat)) (k : Int × Int) (id : Nat) :
    List ((Int × Int) × List Nat) :=
  if bs.any (fun b => decide (b.1 = k)) then
    bs.map (fun b => if b.1 = k then (b.1, if id ∈ b.2 then b.2 else b.2 ++ [id]) else b)
  else
    bs ++ [(k, [id])]

/-- Delete an id from the bucket stored under `k`, and delete the bucket
itself when it becomes empty. -/
def bucketRemove (bs : List ((Int × Int) × List Nat)) (k : Int × Int) (id : Nat) :
    List ((Int × Int) × List Nat) :=
  bs.filterMap (fun b =>
    if b.1 = k then
      let ids := b.2.filter (fun i => decide (i ≠ id))
      if ids.isEmpty then none else some (b.1, ids)
    else some b)

/-- EntityManager.addEntity: store the entity in the id map, stamp its
chunk key from its current position, and insert its id into that bucket.
(The `scene.add(entity.mesh)` side effect is rendering-only.) -/
def EntityManager.addEntity (e : Entity) (m : EntityManager) : EntityManager :=
  let k := getChunkKey e.pos.x e.pos.z
  let e1 := { e with chunkKey := some k }
  { entities := setEntity e1.id e1 m.entities,
    entitiesByChunk := bucketAdd m.entitiesByChunk k e1.id }

/-- EntityManager.removeEntity: look the id up; if absent, do nothing.
Otherwise delete the id from the bucket named by the entity's stored chunk
key, dispose the entity (rendering-only), and delete it from the id map. -/
def EntityManager.removeEntity (id : Nat) (m : EntityManager) : EntityManager :=
  match m.entities.find? (fun e => decide (e.id = id)) with
  | none => m
  | some e =>
    let bs :=
      match e.chunkKey with
      | none => m.entitiesByChunk
      | some k => bucketRemove m.entitiesByChunk k id
    { entities := m.entities.filter (fun x => decide (x.id ≠ id)),
      entitiesByChunk := bs }

/-- EntityManager.getEntitiesInRadius: scan the whole entity map and keep
the entities within the radius.  No liveness filter. -/
def EntityManager.getEntitiesInRadius (m : EntityManager) (p : Pos) (r : ℚ) :
    List Entity :=
  m.entities.filter (fun e => withinRadius e.pos p r)

/-- EntityManager.getInteractablesInRadius: the radius query additionally
filtered by `isInteractable && not isDead`. -/
def EntityManager.getInteractablesInRadius (m : EntityManager) (p : Pos) (r : ℚ) :
    List Entity :=
  (m.getEntitiesInRadius p r).filter (fun e => e.isInteractable && !e.isDead)

/-- EntityManager.updateEntityChunk: move an entity's id from the bucket of
its stored chunk key to the bucket of `newKey`, and restamp the stored key. -/
def EntityManager.updateEntityChunk (m : EntityManager) (e : Entity)
    (newKey : Int × Int) : EntityManager :=
  let bs :=
    match e.chunkKey with
    | none => m.entitiesByChunk
    | some k => bucketRemove m.entitiesByChunk k e.id
  { entities := setEntity e.id { e with chunkKey := some newKey } m.entities,
    entitiesByChunk := bucketAdd bs newKey e.id }

/-- One per-entity behaviour step, the effect of the dynamically dispatched
`entity.update(delta, world)` call on the entity's own state: the new
position, and whether the entity flagged itself dead.  (No update override
in the source registers or removes entities, and none touches another
entity's fields, so this is the full observable effect; the behaviour is
universally quantified in the theorems, covering arbitrary movement.) -/
def Behavior : Type := Entity → Pos × Bool

/-- The body of the EntityManager.update loop for one snapshot entry:
run the entity's own update, recompute its chunk key and rebucket on
mismatch, then remove it if it is dead. -/
def processEntity (beh : Behavior) (m : EntityManager) (id : Nat) : EntityManager :=
  match m.entities.find? (fun e => decide (e.id = id)) with
  | none => m
  | some e0 =>
    let r := beh e0
    let e1 : Entity := { e0 with pos := r.1, isDead := e0.isDead || r.2 }
    let m1 : EntityManager := { m with entities := setEntity id e1 m.entities }
    let newKey := getChunkKey e1.pos.x e1.pos.z
    let m2 := if some newKey = e1.chunkKey then m1 else m1.updateEntityChunk e1 newKey
    if e1.isDead then m2.removeEntity e1.id else m2

/-- EntityManager.update: snapshot the currently registered entities
(`Array.from(this.entities.values())`), then process each snapshot entry
in order against the live state. -/
def EntityManager.update (beh : Behavior) (m : EntityManager) : EntityManager :=
  (m.entities.map (fun e => e.id)).foldl (processEntity beh) m

/-! ## Damage and death (src/entities/Entity.ts) -/

/-- Entity.takeDamage: clamp health at 0; on the transition to 0 while not
yet dead, set the dead flag and fire `die()` exactly here (recorded by the
`dieCount` instrumentation; an Animal's `die()` drops loot). -/
def Entity.takeDamage (amount : ℚ) (e : Entity) : Entity :=
  let h := max 0 (e.health - amount)
  if h ≤ 0 ∧ e.isDead = false then
    { e with health := h, isDead := true, dieCount := e.dieCount + 1 }
  else
    { e with health := h }

/-- A sequence of takeDamage calls, applied left to right. -/
def runDamage (amounts : List ℚ) (e : Entity) : Entity :=
  amounts.foldl (fun s a => Entity.takeDamage a s) e

/-- The interaction system hitting a registered entity between update
ticks: `entity.takeDamage(amount)` mutates the object stored in the entity
map.  (For an Animal, `die()` also registers loot item entities through
unseeded Math.random; those additional registrations do not affect the
damaged entity's own fields or membership and are not modelled.) -/
def EntityManager.applyDamage (id : Nat) (amount : ℚ) (m : EntityManager) :
    EntityManager :=
  { m with entities := m.entities.map (fun e => if e.id = id then e.takeDamage amount else e) }

/-! ## World streaming controller (src/core/World.ts)

Chunk records keep the scene objects pushed during generation (the terrain
mesh and the tree groups; animal meshes are only added to the scene through
addEntity and are not recorded in `chunk.objects`).  Scene objects are
opaque handles; the handle of a spawned entity's mesh is its entity id. -/

/-- A chunk record: its coordinates and the scene objects it owns. -/
structure ChunkRec where
  x : Int
  z : Int
  objects : List Nat
deriving DecidableEq, Repr

/-- The World state: the resident chunk map, the entity manager, the scene
contents, and the id counter standing in for Entity.generateId. -/
structure World where
  chunks : List ((Int × Int) × ChunkRec)
  entityManager : EntityManager
  scene : List Nat
  nextId : Nat
deriving DecidableEq, Repr

/-- The world before any chunk is generated. -/
def World.empty : World := ⟨[], EntityManager.empty, [], 0⟩

/-- Construct the Entity registered for one spawn descriptor (Tree: health
100, Deer: 50, Rabbit: 20; all interactable, per their constructors). -/
def spawnEntity (id : Nat) (s : SpawnRec) : Entity :=
  match s.kind with
  | SpawnKind.tree _ => ⟨id, ⟨s.x, s.y, s.z⟩, 100, 100, false, true, none, 0⟩
  | SpawnKind.deer => ⟨id, ⟨s.x, s.y, s.z⟩, 50, 50, false, true, none, 0⟩
  | SpawnKind.rabbit => ⟨id, ⟨s.x, s.y, s.z⟩, 20, 20, false, true, none, 0⟩

/-- Register a list of spawns: each gets a fresh id, goes through
EntityManager.addEntity (which also adds its mesh to the scene), and its
mesh handle is collected. -/
def spawnAll (spawns : List SpawnRec) (w : World) : World × List Nat :=
  spawns.foldl
    (fun acc s =>
      let w := acc.1
      let id := w.nextId
      ({ w with
          entityManager := w.entityManager.addEntity (spawnEntity id s),
          scene := w.scene ++ [id],
          nextId := w.nextId + 1 },
        acc.2 ++ [id]))
    (w, [])

/-- World.generateChunk: add the terrain mesh to the scene, generate and
register the trees (their groups recorded in `chunk.objects`), generate and
register the animals (not recorded), and store the chunk record. -/
def World.generateChunk (sin : Int → ℚ) (cx cz : Int) (w : World) : World :=
  let terrainHandle := w.nextId
  let w0 := { w with scene := w.scene ++ [terrainHandle], nextId := w.nextId + 1 }
  let tr := spawnAll (generateTreesForChunk sin cx cz) w0
  let an := spawnAll (generateAnimalsForChunk sin cx cz) tr.1
  { an.1 with
      chunks := an.1.chunks ++ [((cx, cz), ⟨cx, cz, terrainHandle :: tr.2⟩)] }

/-- World.unloadChunk: if the chunk is resident, remove its recorded scene
objects from the scene (disposing their geometries and materials) and
delete the chunk record.  Nothing else is touched. -/
def World.unloadChunk (k : Int × Int) (w : World) : World :=
  match w.chunks.find? (fun c => decide (c.1 = k)) with
  | none => w
  | some c =>
    { w with
        scene := w.scene.filter (fun h => decide (h ∉ c.2.objects)),
        chunks := w.chunks.filter (fun c' => decide (c'.1 ≠ k)) }

/-! ## Non-finite coordinates (claim C4)

JavaScript numbers include NaN; `Math.floor (NaN / 50) = NaN` and the
template string then produces the well-defined bucket key "NaN,NaN".  A
number here is either NaN or a finite rational. -/

/-- A JavaScript number: NaN or a finite value. -/
inductive JsNum where
  | nan
  | val (q : ℚ)
deriving DecidableEq, Repr

/-- Division by the chunk size: NaN propagates. -/
def JsNum.div50 : JsNum → JsNum
  | JsNum.nan => JsNum.nan
  | JsNum.val q => JsNum.val (q / 50)

/-- Math.floor: NaN propagates. -/
def JsNum.floorJs : JsNum → JsNum
  | JsNum.nan => JsNum.nan
  | JsNum.val q => JsNum.val ⌊q⌋

/-- EntityManager.getChunkKey on possibly non-finite coordinates.  The two
components stringify into the key; NaN stringifies as "NaN", so equality of
the modelled pairs coincides with equality of the source's string keys. -/
def getChunkKeyJs (x z : JsNum) : JsNum × JsNum :=
  (x.div50.floorJs, z.div50.floorJs)

/-- An entity as seen by the spatial insertion path, with possibly
non-finite planar coordinates. -/
structure EntityJs where
  id : Nat
  px : JsNum
  pz : JsNum
  chunkKey : Option (JsNum × JsNum)
deriving DecidableEq, Repr

/-- The manager state for the non-finite-coordinate model. -/
structure EntityManagerJs where
  entities : List EntityJs
  entitiesByChunk : List ((JsNum × JsNum) × List Nat)
deriving DecidableEq, Repr

/-- EntityManager.addEntity on possibly non-finite coordinates: the same
code path as `EntityManager.addEntity` — store in the id map, stamp the
computed chunk key, insert into that bucket.  There is no validation and no
error path. -/
def addEntityJs (e : EntityJs) (m : EntityManagerJs) : EntityManagerJs :=
  let k := getChunkKeyJs e.px e.pz
  let e1 := { e with chunkKey := some k }
  { entities :=
      if m.entities.any (fun x => decide (x.id = e1.id)) then
        m.entities.map (fun x => if x.id = e1.id then e1 else x)
      else m.entities ++ [e1],
    entitiesByChunk :=
      if m.entitiesByChunk.any (fun b => decide (b.1 = k)) then
        m.entitiesByChunk.map (fun b =>
          if b.1 = k then (b.1, if e1.id ∈ b.2 then b.2 else b.2 ++ [e1.id]) else b)
      else m.entitiesByChunk ++ [(k, [e1.id])] }

/-! ## Animal behaviour state machine (src/entities/Animal.ts)

The animal module works over `ℝ`: `Animal.update` compares true Euclidean
distances and normalises vectors, so its state lives in the reals rather
than in `ℚ`. -/

/-- AnimalState: `IDLE` or `FLEEING`. -/
inductive AnimalState where
  | idle
  | fleeing
deriving DecidableEq, Repr

/-- The numeric AnimalOptions fields the constructor defaults
(`options.x || d`); `none` is an absent (undefined) field.  Position,
health and the loot table are handled elsewhere. -/
structure AnimalOptions where
  fleeDistance : Option ℚ
  fleeSpeed : Option ℚ
  safeDistance : Option ℚ
deriving DecidableEq, Repr

/-- JavaScript `v || d` for an optional numeric option: `d` when the field
is absent or zero (0 is falsy). -/
def jsOrDefault (o : Option ℚ) (d : ℚ) : ℚ :=
  match o with
  | none => d
  | some v => if v = 0 then d else v

/-- A THREE.Vector3 value. -/
abbrev V3 := ℝ × ℝ × ℝ

/-- Componentwise vector difference. -/
def v3sub (a b : V3) : V3 :=
  (a.1 - b.1, a.2.1 - b.2.1, a.2.2 - b.2.2)

noncomputable section

/-- Vector3.length. -/
def v3len (v : V3) : ℝ :=
  Real.sqrt (v.1 ^ 2 + v.2.1 ^ 2 + v.2.2 ^ 2)

/-- Vector3.distanceTo. -/
def v3dist (a b : V3) : ℝ :=
  v3len (v3sub a b)

/-- Vector3.normalize: divide by `length() || 1`; a zero vector has length
0, is divided by 1, and so is returned unchanged. -/
def v3normalize (v : V3) : V3 :=
  if v3len v = 0 then v else (v.1 / v3len v, v.2.1 / v3len v, v.2.2 / v3len v)

/-- The Animal fields driving the state machine (mesh, loot table and the
world back-reference are omitted). -/
structure Animal where
  pos : V3
  state : AnimalState
  fleeDistance : ℝ
  fleeSpeed : ℝ
  safeDistance : ℝ
  fleeDirection : V3
  idleTime : ℝ
  maxIdleTime : ℝ

/-- The Animal constructor: apply the `||` defaults (fleeDistance 10,
fleeSpeed 8, safeDistance 20), start in IDLE with a zero flee direction.
No validation of any relation between the distances is performed. -/
def mkAnimal (position : V3) (o : AnimalOptions) : Animal :=
  { pos := position
    state := AnimalState.idle
    fleeDistance := ((jsOrDefault o.fleeDistance 10 : ℚ) : ℝ)
    fleeSpeed := ((jsOrDefault o.fleeSpeed 8 : ℚ) : ℝ)
    safeDistance := ((jsOrDefault o.safeDistance 20 : ℚ) : ℝ)
    fleeDirection := (0, 0, 0)
    idleTime := 0
    maxIdleTime := 3 }

/-- Animal.updateIdle: accumulate the idle timer; wrap past maxIdleTime. -/
def updateIdle (delta : ℝ) (a : Animal) : Animal :=
  let t := a.idleTime + delta
  if t > a.maxIdleTime then { a with idleTime := 0 } else { a with idleTime := t }

/-- Animal.startFleeing: enter FLEEING, flee direction the normalised
vector from the threat to the animal. -/
def startFleeing (threat : V3) (a : Animal) : Animal :=
  { a with
      state := AnimalState.fleeing
      fleeDirection := v3normalize (v3sub a.pos threat) }

/-- The sub-step loop of Animal.updateFleeing: advance x and z by one step
along the flee direction and snap y to the terrain height there. -/
def fleeStep (terrain : ℝ → ℝ → ℝ) (dir : V3) (stepSize : ℝ) :
    Nat → V3 → V3
  | 0, p => p
  | n + 1, p =>
    let x := p.1 + dir.1 * stepSize
    let z := p.2.2 + dir.2.2 * stepSize
    fleeStep terrain dir stepSize n (x, terrain x z, z)

/-- Animal.updateFleeing: recompute the flee direction away from the
player, then move `fleeSpeed * delta` along it in sub-steps of at most 0.5
world units, sampling terrain height each step. -/
def updateFleeing (terrain : ℝ → ℝ → ℝ) (delta : ℝ) (playerPos : V3)
    (a : Animal) : Animal :=
  let dir := v3normalize (v3sub a.pos playerPos)
  let moveDistance := a.fleeSpeed * delta
  let steps := ⌈moveDistance / (1/2 : ℝ)⌉.toNat
  let stepSize := moveDistance / (steps : ℝ)
  { a with
      fleeDirection := dir
      pos := fleeStep terrain dir stepSize steps a.pos }

/-- Animal.update: with no reachable player, the state machine does not
run.  Otherwise compute the distance to the player once, at the start of
the tick, and dispatch on the state: IDLE runs the idle timer and starts
fleeing if the player is closer than fleeDistance; FLEEING moves away and
returns to IDLE if the start-of-tick distance exceeds safeDistance.
(The final mesh/bounding-box synchronisation is rendering-only.) -/
def Animal.update (terrain : ℝ → ℝ → ℝ) (delta : ℝ) (player : Option V3)
    (a : Animal) : Animal :=
  match player with
  | none => a
  | some p =>
    let d := v3dist a.pos p
    match a.state with
    | AnimalState.idle =>
      let a1 := updateIdle delta a
      if d < a1.fleeDistance then startFleeing p a1 else a1
    | AnimalState.fleeing =>
      let a1 := updateFleeing terrain delta p a
      if d > a1.safeDistance then { a1 with state := AnimalState.idle } else a1

end

/-- The Rabbit configuration (src/entities/Rabbit.ts): fleeDistance 6,
fleeSpeed 9, safeDistance 15. -/
def rabbitOptions : AnimalOptions := ⟨some 6, some 9, some 15⟩

/-- An AnimalOptions value inverting the hysteresis margin: fleeDistance
30, safeDistance 5. -/
def badAnimalOptions : AnimalOptions := ⟨some 30, none, some 5⟩

/-! ## Fixtures for concrete evaluations -/

/-- A concrete sine oracle (any fixed pure function works). -/
def sinZero : Int → ℚ := fun _ => 0

/-- A live interactable entity near the origin. -/
def entA : Entity := ⟨1, ⟨3, 0, 7⟩, 20, 20, false, true, none, 0⟩

/-- A live interactable entity in another chunk. -/
def entB : Entity := ⟨2, ⟨120, 0, -40⟩, 100, 100, false, true, none, 0⟩

/-- A small manager holding the two example entities. -/
def exampleManager : EntityManager :=
  (EntityManager.empty.addEntity entA).addEntity entB

/-- The example manager after the interaction system kills entity 1
(25 damage against 20 health) between ticks. -/
def deadManager : EntityManager :=
  exampleManager.applyDamage 1 25

/-- A behaviour moving every entity 60 units along x (crossing a chunk
boundary) and killing nothing. -/
def moveBeh : Behavior := fun e => (⟨e.pos.x + 60, e.pos.y, e.pos.z⟩, false)

noncomputable section

/-- A rabbit freshly constructed at the origin. -/
def rabbitAt0 : Animal := mkAnimal (0, 0, 0) rabbitOptions

/-- The rabbit after it has started fleeing from a threat at (0, 0, 4). -/
def fleeingRabbit : Animal := startFleeing (0, 0, 4) rabbitAt0

end

/-! ## Well-formedness of the spatial index -/

/-- An id is registered in some bucket stored under key `k`. -/
def inBucket (bs : List ((Int × Int) × List Nat)) (k : Int × Int) (i : Nat) : Prop :=
  ∃ b ∈ bs, b.1 = k ∧ i ∈ b.2

/-- Well-formedness of a manager state: entity ids are distinct (they come
from Entity.generateId), and every id found in a bucket belongs to a
registered entity whose stored chunk key names that bucket.  This holds in
every state the source can reach and is preserved by update (proved
below). -/
def ManagerWF (m : EntityManager) : Prop :=
  (m.entities.map (fun e => e.id)).Nodup ∧
  ∀ b ∈ m.entitiesByChunk, ∀ i ∈ b.2,
    ∃ e ∈ m.entities, e.id = i ∧ e.chunkKey = some b.1

instance (m : EntityManager) : Decidable (ManagerWF m) := by
  unfold ManagerWF; infer_instance

/-- The entity a NaN-positioned spawn request carries (claim C4). -/
def nanEntity : EntityJs := ⟨0, JsNum.nan, JsNum.nan, none⟩

/-- The manager after inserting the NaN-positioned entity into an empty
manager. -/
def nanManager : EntityManagerJs := addEntityJs nanEntity ⟨[], []⟩

/-! # Theorems -/

/-! ## C1: chunk generation is deterministic -/

/-- C1: chunk content generation is deterministic.  In any two runs of
generation requests (arbitrary surrounding requests, no shared state —
every draw is `seededRandom` of an offset of the seed derived from the
chunk coordinates alone), the content produced for the same coordinate
pair is the identical sequence of spawns: same kinds (tree/deer/rabbit),
same world positions, same scales. -/
theorem generation_deterministic (sin : Int → ℚ) (cs1 cs2 : List (Int × Int))
    (c : Int × Int) (l1 l2 : List SpawnRec)
    (h1 : (c, l1) ∈ generateRun sin cs1) (h2 : (c, l2) ∈ generateRun sin cs2) :
    l1 = l2 := by
  rw [generateRun, List.mem_map] at h1 h2
  obtain ⟨a, -, ha⟩ := h1
  obtain ⟨b, -, hb⟩ := h2
  rw [Prod.mk.injEq] at ha hb
  obtain ⟨ha1, ha2⟩ := ha
  obtain ⟨hb1, hb2⟩ := hb
  subst ha1
  subst hb1
  rw [← ha2, ← hb2]

/-- Witness for C1 at a concrete oracle and two concrete runs sharing the
coordinate (1, 2). -/
theorem generation_deterministic_witness :
    ((1, 2), generateChunkSpawns sinZero 1 2) ∈ generateRun sinZero [(0, 0), (1, 2)] ∧
    ((1, 2), generateChunkSpawns sinZero 1 2) ∈ generateRun sinZero [(1, 2), (3, 4)] ∧
    generateChunkSpawns sinZero 1 2 = generateChunkSpawns sinZero 1 2 := by
  have m1 : ((1, 2), generateChunkSpawns sinZero 1 2) ∈ generateRun sinZero [(0, 0), (1, 2)] := by
    simp [generateRun]
  have m2 : ((1, 2), generateChunkSpawns sinZero 1 2) ∈ generateRun sinZero [(1, 2), (3, 4)] := by
    simp [generateRun]
  exact ⟨m1, m2, generation_deterministic sinZero _ _ _ _ _ m1 m2⟩

/-! ## C8: spawn safety around the origin -/

/-- The source discards a slot when `Math.sqrt d2 < c`; a kept slot with a
positive radius therefore satisfies `c^2 ≤ d2`. -/
theorem sqrtLt_false {d2 c : ℚ} (h : ¬ sqrtLt d2 c = true) (hc : 0 < c) :
    c ^ 2 ≤ d2 := by
  rw [sqrtLt, decide_eq_true_eq] at h
  push_neg at h
  exact h hc

/-- C8: every spawn slot of chunk (0,0) whose local offset lies within the
safety radius (10 for trees, 15 for animals) is discarded, so every entity
generated for chunk (0,0) sits at squared distance at least 100 (trees)
resp. 225 (animals) from the origin. -/
theorem spawn_safety (sin : Int → ℚ) :
    (∀ s ∈ generateTreesForChunk sin 0 0, 100 ≤ s.x ^ 2 + s.z ^ 2) ∧
    (∀ s ∈ generateAnimalsForChunk sin 0 0, 225 ≤ s.x ^ 2 + s.z ^ 2) := by
  constructor
  · intro s hs
    rw [generateTreesForChunk, List.mem_filterMap] at hs
    obtain ⟨i, -, hf⟩ := hs
    dsimp only at hf
    split at hf
    · exact Option.noConfusion hf
    · rename_i hcond
      obtain rfl := Option.some.inj hf
      have h100 := sqrtLt_false (fun hb => hcond ⟨rfl, rfl, hb⟩) (by norm_num)
      dsimp only [getTerrainHeight]
      push_cast
      nlinarith [h100]
  · intro s hs
    rw [generateAnimalsForChunk, List.mem_filterMap] at hs
    obtain ⟨i, -, hf⟩ := hs
    dsimp only at hf
    split at hf
    · exact Option.noConfusion hf
    · rename_i hcond
      obtain rfl := Option.some.inj hf
      have h225 := sqrtLt_false (fun hb => hcond ⟨rfl, rfl, hb⟩) (by norm_num)
      dsimp only [getTerrainHeight]
      push_cast
      nlinarith [h225]

section

attribute [local semireducible] Rat.add Rat.sub Rat.mul Rat.inv

/-- Witness for C8: with the concrete oracle, chunk (0,0) keeps a tree at
local offset (-22.5, -22.5), and the theorem applies to it. -/
theorem spawn_safety_witness :
    (⟨SpawnKind.tree (1/5), -45/2, 0, -45/2⟩ : SpawnRec) ∈ generateTreesForChunk sinZero 0 0 ∧
    100 ≤ ((-45/2 : ℚ)) ^ 2 + ((-45/2 : ℚ)) ^ 2 := by
  have m1 : (⟨SpawnKind.tree (1/5), -45/2, 0, -45/2⟩ : SpawnRec) ∈
      generateTreesForChunk sinZero 0 0 := by
    set_option maxHeartbeats 2000000 in decide
  exact ⟨m1, (spawn_safety sinZero).1 _ m1⟩

end

/-! ## C4: NaN coordinates are silently inserted -/

/-- C4 (code bug evidence): addEntity performs no validation.  Inserting
an entity whose coordinates are NaN succeeds silently: the entity is
registered, stamped with the corrupted chunk key "NaN,NaN", and filed in a
bucket under that key — no error path exists. -/
theorem addEntity_nan_silently_inserts :
    (∃ e ∈ nanManager.entities, e.id = 0 ∧ e.chunkKey = some (JsNum.nan, JsNum.nan)) ∧
    nanManager.entitiesByChunk = [((JsNum.nan, JsNum.nan), [0])] := by
  decide

/-! ## C9: chunk eviction does not deregister entities -/

section

attribute [local semireducible] Rat.add Rat.sub Rat.mul Rat.inv

/-- C9 (code bug evidence): World.unloadChunk never touches the entity
manager — for every world state the manager is unchanged — and concretely,
after generating chunk (5,5) (22 entities: 20 trees, 2 animals) and then
unloading it, the chunk record is gone but all 22 spawned entities are
still registered. -/
theorem unloadChunk_leaks_entities :
    (∀ (w : World) (k : Int × Int),
      (World.unloadChunk k w).entityManager = w.entityManager) ∧
    (World.unloadChunk (5, 5) (World.generateChunk sinZero 5 5 World.empty)).chunks = [] ∧
    (World.unloadChunk (5, 5) (World.generateChunk sinZero 5 5 World.empty)).entityManager.entities.length = 22 := by
  refine ⟨?_, ?_, ?_⟩
  · intro w k
    unfold World.unloadChunk
    split <;> rfl
  · set_option maxHeartbeats 4000000 in decide
  · set_option maxHeartbeats 4000000 in decide

end

/-! ## C5: removal is idempotent -/

/-- C5: EntityManager.removeEntity is idempotent: removing the same id a
second time changes nothing, and removing an id that is not registered is
a no-op (and, the model being total, neither raises). -/
theorem removeEntity_idempotent (m : EntityManager) (id : Nat) :
    EntityManager.removeEntity id (EntityManager.removeEntity id m) =
      EntityManager.removeEntity id m ∧
    (m.entities.find? (fun e => decide (e.id = id)) = none →
      EntityManager.removeEntity id m = m) := by
  have hnone : ∀ m' : EntityManager,
      m'.entities.find? (fun e => decide (e.id = id)) = none →
      EntityManager.removeEntity id m' = m' := by
    intro m' h
    unfold EntityManager.removeEntity
    rw [h]
  constructor
  · cases hf : m.entities.find? (fun e => decide (e.id = id)) with
    | none =>
      have h1 := hnone m hf
      rw [h1]
      exact h1
    | some e =>
      apply hnone
      apply List.find?_eq_none.mpr
      intro x hx
      have hent : (EntityManager.removeEntity id m).entities =
          m.entities.filter (fun x => decide (x.id ≠ id)) := by
        unfold EntityManager.removeEntity
        rw [hf]
      rw [hent] at hx
      have := (List.mem_filter.mp hx).2
      simp only [decide_eq_true_eq] at this ⊢
      exact this
  · exact hnone m

/-- Witness for C5: on the concrete two-entity manager, double removal of
id 1 equals single removal, and removing the unregistered id 99 is a
no-op. -/
theorem removeEntity_idempotent_witness :
    EntityManager.removeEntity 1 (EntityManager.removeEntity 1 exampleManager) =
      EntityManager.removeEntity 1 exampleManager ∧
    EntityManager.removeEntity 99 exampleManager = exampleManager :=
  ⟨(removeEntity_idempotent exampleManager 1).1,
   (removeEntity_idempotent exampleManager 99).2 (by decide)⟩

/-! ## Spatial index machinery: membership lemmas -/

/-- An element of the entity map after Map.set is the stored entity or an
unrelated previous entry. -/
theorem mem_setEntity {id : Nat} {e : Entity} {l : List Entity} :
    ∀ x ∈ setEntity id e l, x = e ∨ (x ∈ l ∧ x.id ≠ id) := by
  intro x hx
  unfold setEntity at hx
  split at hx
  · rw [List.mem_map] at hx
    obtain ⟨y, hy, hxy⟩ := hx
    by_cases hyid : y.id = id
    · left; rw [← hxy, if_pos hyid]
    · right
      rw [← hxy, if_neg hyid]
      exact ⟨hy, hyid⟩
  · rename_i hany
    rw [List.mem_append] at hx
    rcases hx with hx | hx
    · right
      refine ⟨hx, fun hxi => hany ?_⟩
      exact List.any_eq_true.mpr ⟨x, hx, by simpa using hxi⟩
    · left; simpa using hx

/-- Map.set stores the entity. -/
theorem setEntity_mem_self {id : Nat} {e : Entity} (l : List Entity)
    (hid : e.id = id) : e ∈ setEntity id e l := by
  unfold setEntity
  split
  · rename_i hany
    rw [List.any_eq_true] at hany
    obtain ⟨y, hy, hyid⟩ := hany
    rw [decide_eq_true_eq] at hyid
    rw [List.mem_map]
    exact ⟨y, hy, by rw [if_pos hyid]⟩
  · exact List.mem_append_right _ (by simp)

/-- Map.set keeps entries with other ids. -/
theorem mem_setEntity_of_ne {x : Entity} {l : List Entity} (hx : x ∈ l)
    (id : Nat) (e : Entity) (hne : x.id ≠ id) : x ∈ setEntity id e l := by
  unfold setEntity
  split
  · rw [List.mem_map]
    exact ⟨x, hx, by rw [if_neg hne]⟩
  · exact List.mem_append_left _ hx

/-- Map.set preserves distinctness of ids when the stored entity keeps the
id it is stored under. -/
theorem setEntity_nodup {id : Nat} {e : Entity} {l : List Entity}
    (hid : e.id = id) (h : (l.map (fun x => x.id)).Nodup) :
    ((setEntity id e l).map (fun x => x.id)).Nodup := by
  unfold setEntity
  split
  · have heq : (l.map (fun x => if x.id = id then e else x)).map (fun x => x.id) =
        l.map (fun x => x.id) := by
      rw [List.map_map]
      apply List.map_congr_left
      intro a _
      by_cases h1 : a.id = id <;> simp [h1, hid, Function.comp]
    rw [heq]
    exact h
  · rename_i hany
    rw [List.map_append]
    refine List.Nodup.append h (by simp) ?_
    intro a ha hb
    rw [List.mem_map] at ha
    obtain ⟨y, hy, hya⟩ := ha
    simp only [List.map_cons, List.map_nil, List.mem_singleton] at hb
    exact hany (List.any_eq_true.mpr ⟨y, hy, by simp [hya, hb, hid]⟩)

/-- Entries surviving removeEntity were registered and do not carry the
removed id. -/
theorem mem_removeEntity {m : EntityManager} {id : Nat} {x : Entity}
    (hx : x ∈ (EntityManager.removeEntity id m).entities) :
    x ∈ m.entities ∧ x.id ≠ id := by
  unfold EntityManager.removeEntity at hx
  split at hx
  · rename_i hf
    exact ⟨hx, by simpa using List.find?_eq_none.mp hf x hx⟩
  · rename_i e0 hf
    dsimp only at hx
    rw [List.mem_filter] at hx
    exact ⟨hx.1, by simpa using hx.2⟩

/-- Bucket membership after deleting an id from the bucket under `k`. -/
theorem inBucket_bucketRemove {bs : List ((Int × Int) × List Nat)}
    {k : Int × Int} {id : Nat} {kq : Int × Int} {i : Nat} :
    inBucket (bucketRemove bs k id) kq i ↔
      inBucket bs kq i ∧ ¬(kq = k ∧ i = id) := by
  unfold inBucket bucketRemove
  constructor
  · rintro ⟨b, hb, hbk, hbi⟩
    rw [List.mem_filterMap] at hb
    obtain ⟨a, ha, hab⟩ := hb
    by_cases hak : a.1 = k
    · rw [if_pos hak] at hab
      dsimp only at hab
      split at hab
      · exact Option.noConfusion hab
      · obtain rfl := Option.some.inj hab
        rw [List.mem_filter] at hbi
        refine ⟨⟨a, ha, hbk, hbi.1⟩, ?_⟩
        rintro ⟨-, rfl⟩
        simpa using hbi.2
    · rw [if_neg hak] at hab
      obtain rfl := Option.some.inj hab
      refine ⟨⟨a, ha, hbk, hbi⟩, ?_⟩
      rintro ⟨h1, -⟩
      exact hak (hbk.trans h1)
  · rintro ⟨⟨b, hb, hbk, hbi⟩, hni⟩
    by_cases hbk2 : b.1 = k
    · have hk : kq = k := by rw [← hbk, hbk2]
      have hi : i ≠ id := fun h => hni ⟨hk, h⟩
      have hmem : i ∈ b.2.filter (fun j => decide (j ≠ id)) :=
        List.mem_filter.mpr ⟨hbi, by simpa using hi⟩
      refine ⟨(b.1, b.2.filter (fun j => decide (j ≠ id))), ?_, hbk, hmem⟩
      rw [List.mem_filterMap]
      refine ⟨b, hb, ?_⟩
      rw [if_pos hbk2]
      dsimp only
      split
      · rename_i hemp
        rw [List.isEmpty_iff] at hemp
        rw [hemp] at hmem
        exact absurd hmem (List.not_mem_nil i)
      · rfl
    · refine ⟨b, ?_, hbk, hbi⟩
      rw [List.mem_filterMap]
      exact ⟨b, hb, by rw [if_neg hbk2]⟩

/-- Bucket membership after adding an id to the bucket under `k`. -/
theorem inBucket_bucketAdd {bs : List ((Int × Int) × List Nat)}
    {k : Int × Int} {n : Nat} {kq : Int × Int} {i : Nat} :
    inBucket (bucketAdd bs k n) kq i ↔
      inBucket bs kq i ∨ (kq = k ∧ i = n) := by
  unfold inBucket bucketAdd
  split
  · rename_i hany
    constructor
    · rintro ⟨b, hb, hbk, hbi⟩
      rw [List.mem_map] at hb
      obtain ⟨a, ha, hab⟩ := hb
      by_cases hak : a.1 = k
      · rw [if_pos hak] at hab
        subst hab
        dsimp only at hbk hbi
        split at hbi
        · exact Or.inl ⟨a, ha, hbk, hbi⟩
        · rw [List.mem_append] at hbi
          rcases hbi with hbi | hbi
          · exact Or.inl ⟨a, ha, hbk, hbi⟩
          · right
            refine ⟨?_, by simpa using hbi⟩
            rw [← hbk]
            exact hak
      · rw [if_neg hak] at hab
        subst hab
        exact Or.inl ⟨a, ha, hbk, hbi⟩
    · rintro (⟨b, hb, hbk, hbi⟩ | ⟨rfl, rfl⟩)
      · by_cases hbk2 : b.1 = k
        · refine ⟨(b.1, if n ∈ b.2 then b.2 else b.2 ++ [n]), ?_, hbk, ?_⟩
          · rw [List.mem_map]
            exact ⟨b, hb, by rw [if_pos hbk2]⟩
          · dsimp only
            split
            · exact hbi
            · exact List.mem_append_left _ hbi
        · refine ⟨b, ?_, hbk, hbi⟩
          rw [List.mem_map]
          exact ⟨b, hb, by rw [if_neg hbk2]⟩
      · rw [List.any_eq_true] at hany
        obtain ⟨a, ha, hak⟩ := hany
        rw [decide_eq_true_eq] at hak
        refine ⟨(a.1, if i ∈ a.2 then a.2 else a.2 ++ [i]), ?_, hak, ?_⟩
        · rw [List.mem_map]
          exact ⟨a, ha, by rw [if_pos hak]⟩
        · dsimp only
          split
          · assumption
          · exact List.mem_append_right _ (by simp)
  · constructor
    · rintro ⟨b, hb, hbk, hbi⟩
      rw [List.mem_append] at hb
      rcases hb with hb | hb
      · exact Or.inl ⟨b, hb, hbk, hbi⟩
      · have hb2 : b = (k, [n]) := by simpa using hb
        subst hb2
        right
        exact ⟨hbk.symm, by simpa using hbi⟩
    · rintro (⟨b, hb, hbk, hbi⟩ | ⟨rfl, rfl⟩)
      · exact ⟨b, List.mem_append_left _ hb, hbk, hbi⟩
      · exact ⟨(kq, [i]), List.mem_append_right _ (by simp), rfl, by simp⟩

/-- The containment half of well-formedness, through the inBucket view. -/
theorem ManagerWF.ofInBucket {m : EntityManager} (h : ManagerWF m)
    {k : Int × Int} {i : Nat} (hib : inBucket m.entitiesByChunk k i) :
    ∃ e ∈ m.entities, e.id = i ∧ e.chunkKey = some k := by
  obtain ⟨b, hb, hbk, hbi⟩ := hib
  obtain ⟨e, he, hei, hek⟩ := h.2 b hb i hbi
  exact ⟨e, he, hei, by rw [hek, hbk]⟩

/-- Distinct ids identify entities. -/
theorem eq_of_id_eq {l : List Entity} (h : (l.map (fun e => e.id)).Nodup)
    {x y : Entity} (hx : x ∈ l) (hy : y ∈ l) (hxy : x.id = y.id) : x = y :=
  List.inj_on_of_nodup_map h hx hy hxy

/-! ## Well-formedness is preserved by the manager operations -/

/-- The entity map after updateEntityChunk. -/
theorem updateEntityChunk_entities (m : EntityManager) (e : Entity) (k : Int × Int) :
    (m.updateEntityChunk e k).entities =
      setEntity e.id { e with chunkKey := some k } m.entities := rfl

/-- The spatial index after updateEntityChunk. -/
theorem updateEntityChunk_buckets (m : EntityManager) (e : Entity) (k : Int × Int) :
    (m.updateEntityChunk e k).entitiesByChunk =
      bucketAdd
        (match e.chunkKey with
          | none => m.entitiesByChunk
          | some k0 => bucketRemove m.entitiesByChunk k0 e.id) k e.id := rfl

/-- Bucket membership after updateEntityChunk: the id moves to the new
key's bucket, everything else stays. -/
theorem inBucket_updateEntityChunk {m : EntityManager} {e : Entity}
    {newKey kq : Int × Int} {i : Nat} :
    inBucket (m.updateEntityChunk e newKey).entitiesByChunk kq i ↔
      ((inBucket m.entitiesByChunk kq i ∧ (e.chunkKey = some kq → i ≠ e.id)) ∨
        (kq = newKey ∧ i = e.id)) := by
  rw [updateEntityChunk_buckets]
  cases hck : e.chunkKey with
  | none =>
    rw [inBucket_bucketAdd]
    simp
  | some k0 =>
    rw [inBucket_bucketAdd, inBucket_bucketRemove]
    constructor
    · rintro (⟨h1, h2⟩ | h)
      · left
        refine ⟨h1, fun hk hi => ?_⟩
        exact h2 ⟨(Option.some.inj hk).symm, hi⟩
      · exact Or.inr h
    · rintro (⟨h1, h2⟩ | h)
      · left
        refine ⟨h1, ?_⟩
        rintro ⟨hkq, hi⟩
        exact h2 (by rw [hkq]) hi
      · exact Or.inr h

/-- Replacing the unique holder of an id by an entity with the same id and
the same stored chunk key preserves well-formedness.  (This is the
`entity.update` write-back: position and dead flag change, id and chunk
key do not.) -/
theorem WF_setEntity_samekey {m : EntityManager} (h : ManagerWF m) {e0 : Entity}
    (e1 : Entity) {id0 : Nat} (he0 : e0 ∈ m.entities) (hid0 : e0.id = id0)
    (hid : e1.id = e0.id) (hkey : e1.chunkKey = e0.chunkKey) :
    ManagerWF { m with entities := setEntity id0 e1 m.entities } := by
  refine ⟨setEntity_nodup (hid.trans hid0) h.1, ?_⟩
  intro b hb i hbi
  obtain ⟨e, he, hei, hek⟩ := h.2 b hb i hbi
  by_cases hee : e.id = id0
  · have heq : e = e0 := eq_of_id_eq h.1 he he0 (hee.trans hid0.symm)
    subst heq
    refine ⟨e1, setEntity_mem_self _ (hid.trans hid0), ?_, ?_⟩
    · rw [hid]; exact hei
    · rw [hkey]; exact hek
  · exact ⟨e, mem_setEntity_of_ne he _ _ hee, hei, hek⟩

/-- Rebucketing a registered entity preserves well-formedness. -/
theorem WF_updateEntityChunk {m : EntityManager} (h : ManagerWF m) {e : Entity}
    (he : e ∈ m.entities) (newKey : Int × Int) :
    ManagerWF (m.updateEntityChunk e newKey) := by
  constructor
  · rw [updateEntityChunk_entities]
    exact setEntity_nodup rfl h.1
  · intro b hb i hbi
    have hib : inBucket (m.updateEntityChunk e newKey).entitiesByChunk b.1 i :=
      ⟨b, hb, rfl, hbi⟩
    rw [inBucket_updateEntityChunk] at hib
    rw [updateEntityChunk_entities]
    rcases hib with ⟨h1, h2⟩ | ⟨hk, hi⟩
    · obtain ⟨e2, he2, he2i, he2k⟩ := h.ofInBucket h1
      by_cases hee : e2.id = e.id
      · have heq : e2 = e := eq_of_id_eq h.1 he2 he hee
        subst heq
        exact absurd he2i.symm (h2 he2k)
      · exact ⟨e2, mem_setEntity_of_ne he2 _ _ hee, he2i, he2k⟩
    · refine ⟨{ e with chunkKey := some newKey }, setEntity_mem_self _ rfl, hi.symm, ?_⟩
      rw [hk]

/-- removeEntity preserves well-formedness. -/
theorem WF_removeEntity {m : EntityManager} (h : ManagerWF m) (id0 : Nat) :
    ManagerWF (EntityManager.removeEntity id0 m) := by
  unfold EntityManager.removeEntity
  split
  · exact h
  · rename_i e0 hf
    have he0 : e0 ∈ m.entities := List.mem_of_find?_eq_some hf
    have hfid : e0.id = id0 := by simpa using List.find?_some hf
    constructor
    · dsimp only
      exact List.Nodup.sublist (List.Sublist.map _ (List.filter_sublist _)) h.1
    · intro b hb i hbi
      dsimp only at hb ⊢
      cases hck : e0.chunkKey with
      | none =>
        rw [hck] at hb
        dsimp only at hb
        obtain ⟨e2, he2, he2i, he2k⟩ := h.2 b hb i hbi
        have hne : e2.id ≠ id0 := by
          intro hcontra
          have heq : e2 = e0 := eq_of_id_eq h.1 he2 he0 (hcontra.trans hfid.symm)
          rw [heq, hck] at he2k
          exact Option.noConfusion he2k
        exact ⟨e2, List.mem_filter.mpr ⟨he2, by simpa using hne⟩, he2i, he2k⟩
      | some k0 =>
        rw [hck] at hb
        dsimp only at hb
        have hib : inBucket (bucketRemove m.entitiesByChunk k0 id0) b.1 i :=
          ⟨b, hb, rfl, hbi⟩
        rw [inBucket_bucketRemove] at hib
        obtain ⟨hib0, hni⟩ := hib
        obtain ⟨e2, he2, he2i, he2k⟩ := h.ofInBucket hib0
        have hne : e2.id ≠ id0 := by
          intro hcontra
          have heq : e2 = e0 := eq_of_id_eq h.1 he2 he0 (hcontra.trans hfid.symm)
          apply hni
          constructor
          · rw [heq, hck] at he2k
            exact (Option.some.inj he2k).symm
          · rw [← he2i, hcontra]
        exact ⟨e2, List.mem_filter.mpr ⟨he2, by simpa using hne⟩, he2i, he2k⟩

/-- One pass of the update loop preserves well-formedness. -/
theorem WF_processEntity (beh : Behavior) (m : EntityManager) (id0 : Nat)
    (h : ManagerWF m) : ManagerWF (processEntity beh m id0) := by
  unfold processEntity
  split
  · exact h
  · rename_i e0 hf
    have he0 : e0 ∈ m.entities := List.mem_of_find?_eq_some hf
    have hfid : e0.id = id0 := by simpa using List.find?_some hf
    dsimp only
    have h1 : ManagerWF { m with entities := setEntity id0 ({ e0 with pos := (beh e0).1, isDead := e0.isDead || (beh e0).2 }) m.entities } :=
      WF_setEntity_samekey h
        ({ e0 with pos := (beh e0).1, isDead := e0.isDead || (beh e0).2 }) he0 hfid rfl rfl
    have hmem : ({ e0 with pos := (beh e0).1, isDead := e0.isDead || (beh e0).2 } : Entity) ∈
        setEntity id0 ({ e0 with pos := (beh e0).1, isDead := e0.isDead || (beh e0).2 })
          m.entities :=
      setEntity_mem_self _ hfid
    split
    · apply WF_removeEntity
      split
      · exact h1
      · exact WF_updateEntityChunk h1 hmem _
    · split
      · exact h1
      · exact WF_updateEntityChunk h1 hmem _

/-- The whole update pass preserves well-formedness. -/
theorem WF_foldl (beh : Behavior) :
    ∀ (ids : List Nat) (m : EntityManager), ManagerWF m →
      ManagerWF (ids.foldl (processEntity beh) m) := by
  intro ids
  induction ids with
  | nil => intro m h; exact h
  | cons a t ih => intro m h; exact ih _ (WF_processEntity beh m a h)

/-- EntityManager.update preserves well-formedness. -/
theorem WF_update (beh : Behavior) (m : EntityManager) (h : ManagerWF m) :
    ManagerWF (m.update beh) :=
  WF_foldl beh _ m h

/-! ## C2: chunk keys are consistent after every update tick -/

/-- After one loop pass, an entity is chunk-consistent or is an untouched
previous entry with a different id. -/
theorem processEntity_chunk_cases (beh : Behavior) (m : EntityManager) (id0 : Nat) :
    ∀ x ∈ (processEntity beh m id0).entities,
      x.chunkKey = some (getChunkKey x.pos.x x.pos.z) ∨ (x ∈ m.entities ∧ x.id ≠ id0) := by
  unfold processEntity
  split
  · rename_i hf
    intro x hx
    exact Or.inr ⟨hx, by simpa using List.find?_eq_none.mp hf x hx⟩
  · rename_i e0 hf
    have hfid : e0.id = id0 := by simpa using List.find?_some hf
    dsimp only
    intro x hx
    split at hx
    · obtain ⟨hx2, hxid⟩ := mem_removeEntity hx
      split at hx2
      · rcases mem_setEntity x hx2 with rfl | ⟨hxm, hxne⟩
        · exact absurd rfl hxid
        · exact Or.inr ⟨hxm, hxne⟩
      · rw [updateEntityChunk_entities] at hx2
        rcases mem_setEntity x hx2 with rfl | ⟨hx3, hxne⟩
        · exact absurd rfl hxid
        · rcases mem_setEntity x hx3 with rfl | ⟨hxm, hxne2⟩
          · exact absurd rfl hxne
          · exact Or.inr ⟨hxm, hxne2⟩
    · split at hx
      · rename_i hkeq
        rcases mem_setEntity x hx with rfl | ⟨hxm, hxne⟩
        · exact Or.inl hkeq.symm
        · exact Or.inr ⟨hxm, hxne⟩
      · rw [updateEntityChunk_entities] at hx
        rcases mem_setEntity x hx with rfl | ⟨hx3, hxne⟩
        · exact Or.inl rfl
        · rcases mem_setEntity x hx3 with rfl | ⟨hxm, hxne2⟩
          · exact absurd rfl hxne
          · exact Or.inr ⟨hxm, hxne2⟩

/-- C2: after any EntityManager.update tick — entities moving arbitrarily
(the behaviour is universally quantified) — every entity registered in the
id map has its stored chunk key equal to the key computed from its current
position, because the loop recomputes the key unconditionally for every
snapshot entity and rebuckets on mismatch, and entities added earlier were
stamped on insertion. -/
theorem update_chunk_consistency (beh : Behavior) (m : EntityManager) :
    ∀ x ∈ (m.update beh).entities,
      x.chunkKey = some (getChunkKey x.pos.x x.pos.z) := by
  have hfold : ∀ (ids : List Nat) (m0 : EntityManager),
      (∀ x ∈ m0.entities, x.chunkKey = some (getChunkKey x.pos.x x.pos.z) ∨ x.id ∈ ids) →
      ∀ x ∈ (ids.foldl (processEntity beh) m0).entities,
        x.chunkKey = some (getChunkKey x.pos.x x.pos.z) := by
    intro ids
    induction ids with
    | nil =>
      intro m0 h x hx
      rcases h x hx with h | h
      · exact h
      · exact absurd h (List.not_mem_nil _)
    | cons a t ih =>
      intro m0 h x hx
      rw [List.foldl_cons] at hx
      refine ih (processEntity beh m0 a) ?_ x hx
      intro y hy
      rcases processEntity_chunk_cases beh m0 a y hy with hc | ⟨hym, hyne⟩
      · exact Or.inl hc
      · rcases h y hym with hc | hid
        · exact Or.inl hc
        · rcases List.mem_cons.mp hid with h1 | h1
          · exact absurd h1 hyne
          · exact Or.inr h1
  intro x hx
  unfold EntityManager.update at hx
  refine hfold _ m ?_ x hx
  intro y hy
  exact Or.inr (List.mem_map.mpr ⟨y, hy, rfl⟩)

/-! ## C3: dead entities after the update tick -/

/-- After one loop pass, an entity is alive or is an untouched previous
entry with a different id. -/
theorem processEntity_alive_cases (beh : Behavior) (m : EntityManager) (id0 : Nat) :
    ∀ x ∈ (processEntity beh m id0).entities,
      x.isDead = false ∨ (x ∈ m.entities ∧ x.id ≠ id0) := by
  unfold processEntity
  split
  · rename_i hf
    intro x hx
    exact Or.inr ⟨hx, by simpa using List.find?_eq_none.mp hf x hx⟩
  · rename_i e0 hf
    have hfid : e0.id = id0 := by simpa using List.find?_some hf
    dsimp only
    intro x hx
    split at hx
    · obtain ⟨hx2, hxid⟩ := mem_removeEntity hx
      split at hx2
      · rcases mem_setEntity x hx2 with rfl | ⟨hxm, hxne⟩
        · exact absurd rfl hxid
        · exact Or.inr ⟨hxm, hxne⟩
      · rw [updateEntityChunk_entities] at hx2
        rcases mem_setEntity x hx2 with rfl | ⟨hx3, hxne⟩
        · exact absurd rfl hxid
        · rcases mem_setEntity x hx3 with rfl | ⟨hxm, hxne2⟩
          · exact absurd rfl hxne
          · exact Or.inr ⟨hxm, hxne2⟩
    · rename_i hnd
      split at hx
      · rcases mem_setEntity x hx with rfl | ⟨hxm, hxne⟩
        · left; simpa using hnd
        · exact Or.inr ⟨hxm, hxne⟩
      · rw [updateEntityChunk_entities] at hx
        rcases mem_setEntity x hx with rfl | ⟨hx3, hxne⟩
        · left; simpa using hnd
        · rcases mem_setEntity x hx3 with rfl | ⟨hxm, hxne2⟩
          · exact absurd rfl hxne
          · exact Or.inr ⟨hxm, hxne2⟩

/-- No dead entity survives an update tick in the id map: every snapshot
entity whose dead flag is set when its turn comes is removed in that same
pass. -/
theorem update_no_dead (beh : Behavior) (m : EntityManager) :
    ∀ x ∈ (m.update beh).entities, x.isDead = false := by
  have hfold : ∀ (ids : List Nat) (m0 : EntityManager),
      (∀ x ∈ m0.entities, x.isDead = false ∨ x.id ∈ ids) →
      ∀ x ∈ (ids.foldl (processEntity beh) m0).entities, x.isDead = false := by
    intro ids
    induction ids with
    | nil =>
      intro m0 h x hx
      rcases h x hx with h | h
      · exact h
      · exact absurd h (List.not_mem_nil _)
    | cons a t ih =>
      intro m0 h x hx
      rw [List.foldl_cons] at hx
      refine ih (processEntity beh m0 a) ?_ x hx
      intro y hy
      rcases processEntity_alive_cases beh m0 a y hy with hc | ⟨hym, hyne⟩
      · exact Or.inl hc
      · rcases h y hym with hc | hid
        · exact Or.inl hc
        · rcases List.mem_cons.mp hid with h1 | h1
          · exact absurd h1 hyne
          · exact Or.inr h1
  intro x hx
  unfold EntityManager.update at hx
  refine hfold _ m ?_ x hx
  intro y hy
  exact Or.inr (List.mem_map.mpr ⟨y, hy, rfl⟩)

/-- C3 (amended): getInteractablesInRadius never returns a dead entity;
after the update tick in which an entity is marked dead it is out of the
id map, well-formedness is preserved, every bucketed id belongs to a live
registered entity, and no query run after that tick's update can return a
dead entity.  (getEntitiesInRadius itself does not filter the dead flag —
see the counterexample.) -/
theorem dead_entities_removed (beh : Behavior) (m : EntityManager) (p : Pos) (r : ℚ)
    (hwf : ManagerWF m) :
    (∀ e ∈ m.getInteractablesInRadius p r, e.isDead = false) ∧
    (∀ e ∈ (m.update beh).entities, e.isDead = false) ∧
    ManagerWF (m.update beh) ∧
    (∀ b ∈ (m.update beh).entitiesByChunk, ∀ i ∈ b.2,
      ∃ e ∈ (m.update beh).entities, e.id = i ∧ e.isDead = false) ∧
    (∀ e ∈ (m.update beh).getEntitiesInRadius p r, e.isDead = false) := by
  have halive := update_no_dead beh m
  have hwf2 := WF_update beh m hwf
  refine ⟨?_, halive, hwf2, ?_, ?_⟩
  · intro e he
    unfold EntityManager.getInteractablesInRadius at he
    rw [List.mem_filter] at he
    have h2 := he.2
    simp only [Bool.and_eq_true, Bool.not_eq_true'] at h2
    exact h2.2
  · intro b hb i hbi
    obtain ⟨e, he, hei, -⟩ := hwf2.2 b hb i hbi
    exact ⟨e, he, hei, halive e he⟩
  · intro e he
    unfold EntityManager.getEntitiesInRadius at he
    rw [List.mem_filter] at he
    exact halive e he.1

section

attribute [local semireducible] Rat.add Rat.sub Rat.mul Rat.inv

/-- Witness for C2: after one tick moving the two example entities by 60
units along x, the entity that started at (3, 0, 7) sits at (63, 0, 7)
with stored chunk key (1, 0), which the theorem confirms equals the key
computed from its position. -/
theorem update_chunk_consistency_witness :
    (⟨1, ⟨63, 0, 7⟩, 20, 20, false, true, some (1, 0), 0⟩ : Entity) ∈
      (exampleManager.update moveBeh).entities ∧
    (⟨1, ⟨63, 0, 7⟩, 20, 20, false, true, some (1, 0), 0⟩ : Entity).chunkKey =
      some (getChunkKey (63 : ℚ) 7) := by
  have hm : (⟨1, ⟨63, 0, 7⟩, 20, 20, false, true, some (1, 0), 0⟩ : Entity) ∈
      (exampleManager.update moveBeh).entities := by
    set_option maxHeartbeats 2000000 in decide
  exact ⟨hm, update_chunk_consistency moveBeh exampleManager _ hm⟩

/-- Witness for C3 on the concrete manager holding a freshly killed entity
and a live one, with a behaviour that moves entities across a chunk
boundary. -/
theorem dead_entities_removed_witness :
    (∀ e ∈ deadManager.getInteractablesInRadius ⟨0, 0, 0⟩ 10, e.isDead = false) ∧
    (∀ e ∈ (deadManager.update moveBeh).entities, e.isDead = false) ∧
    ManagerWF (deadManager.update moveBeh) ∧
    (∀ b ∈ (deadManager.update moveBeh).entitiesByChunk, ∀ i ∈ b.2,
      ∃ e ∈ (deadManager.update moveBeh).entities, e.id = i ∧ e.isDead = false) ∧
    (∀ e ∈ (deadManager.update moveBeh).getEntitiesInRadius ⟨0, 0, 0⟩ 10, e.isDead = false) :=
  dead_entities_removed moveBeh deadManager ⟨0, 0, 0⟩ 10
    (by set_option maxHeartbeats 2000000 in decide)

/-- C3 counterexample: a dead entity still registered (killed by the
interaction system after the last tick) IS returned by getEntitiesInRadius,
which filters only by distance — the claim's "never returned by the
spatial queries" fails for getEntitiesInRadius. -/
theorem getEntitiesInRadius_returns_dead :
    ∃ e ∈ deadManager.getEntitiesInRadius ⟨0, 0, 0⟩ 10, e.isDead = true := by
  set_option maxHeartbeats 2000000 in decide

end

/-! ## C10: death fires at most once -/

/-- Health stays clamped at 0 after one takeDamage call. -/
theorem takeDamage_health_nonneg (a : ℚ) (e : Entity) :
    0 ≤ (e.takeDamage a).health := by
  simp only [Entity.takeDamage]
  split <;> exact le_max_left 0 _

/-- The dead flag is never cleared by takeDamage. -/
theorem takeDamage_isDead_mono (a : ℚ) (e : Entity) (h : e.isDead = true) :
    (e.takeDamage a).isDead = true := by
  simp only [Entity.takeDamage]
  split
  · rfl
  · exact h

/-- The die counter equals the dead-flag indicator and stays in lockstep
with it across a takeDamage call: die() fires exactly on the flag's
false-to-true transition. -/
theorem takeDamage_dieCount_sync (a : ℚ) (e : Entity)
    (h : e.dieCount = if e.isDead then 1 else 0) :
    (e.takeDamage a).dieCount = if (e.takeDamage a).isDead then 1 else 0 := by
  simp only [Entity.takeDamage]
  split
  · rename_i hc
    rw [hc.2] at h
    simpa using h
  · exact h

/-- Unfolding one damage call off a damage sequence. -/
theorem runDamage_cons (a : ℚ) (l : List ℚ) (e : Entity) :
    runDamage (a :: l) e = runDamage l (e.takeDamage a) := rfl

/-- Splitting a damage sequence. -/
theorem runDamage_append (l1 l2 : List ℚ) (e : Entity) :
    runDamage (l1 ++ l2) e = runDamage l2 (runDamage l1 e) := by
  unfold runDamage
  rw [List.foldl_append]

/-- Health stays nonnegative across any damage sequence. -/
theorem runDamage_health_nonneg (l : List ℚ) (e : Entity) (h : 0 ≤ e.health) :
    0 ≤ (runDamage l e).health := by
  induction l generalizing e with
  | nil => exact h
  | cons a t ih => exact ih (e.takeDamage a) (takeDamage_health_nonneg a e)

/-- The dead flag is monotone across any damage sequence. -/
theorem runDamage_isDead_mono (l : List ℚ) (e : Entity) (h : e.isDead = true) :
    (runDamage l e).isDead = true := by
  induction l generalizing e with
  | nil => exact h
  | cons a t ih => exact ih (e.takeDamage a) (takeDamage_isDead_mono a e h)

/-- The die counter stays the dead-flag indicator across any sequence. -/
theorem runDamage_dieCount_sync (l : List ℚ) (e : Entity)
    (h : e.dieCount = if e.isDead then 1 else 0) :
    (runDamage l e).dieCount = if (runDamage l e).isDead then 1 else 0 := by
  induction l generalizing e with
  | nil => exact h
  | cons a t ih => exact ih (e.takeDamage a) (takeDamage_dieCount_sync a e h)

/-- C10: for an initially alive entity and any sequence of nonnegative
damage amounts, at every point of the sequence health is clamped at 0 and
never negative, the dead flag once set stays set to the end, and the
`die()` handler has run exactly once if the entity is dead and never
otherwise — it fires on the call that first brings health to 0 and on no
later call. -/
theorem takeDamage_die_once (amounts : List ℚ) (e : Entity)
    (hamts : ∀ a ∈ amounts, 0 ≤ a) (hh : 0 ≤ e.health)
    (hd : e.isDead = false) (hc : e.dieCount = 0) :
    ∀ l1 l2, amounts = l1 ++ l2 →
      0 ≤ (runDamage l1 e).health ∧
      ((runDamage l1 e).isDead = true → (runDamage amounts e).isDead = true) ∧
      (runDamage l1 e).dieCount = (if (runDamage l1 e).isDead then 1 else 0) := by
  intro l1 l2 hsplit
  refine ⟨runDamage_health_nonneg l1 e hh, ?_, ?_⟩
  · intro hdead
    rw [hsplit, runDamage_append]
    exact runDamage_isDead_mono l2 _ hdead
  · apply runDamage_dieCount_sync
    rw [hc, hd]
    rfl

/-- Witness for C10: entity with health 20 hit for 5, then 100, then 3:
after the first two hits health is 0, the entity is dead, die() has fired
once, and it stays dead through the third hit. -/
theorem takeDamage_die_once_witness :
    0 ≤ (runDamage [5, 100] entA).health ∧
    ((runDamage [5, 100] entA).isDead = true →
      (runDamage [5, 100, 3] entA).isDead = true) ∧
    (runDamage [5, 100] entA).dieCount =
      (if (runDamage [5, 100] entA).isDead then 1 else 0) :=
  takeDamage_die_once [5, 100, 3] entA (by decide) (by decide) rfl rfl
    [5, 100] [3] rfl

/-! ## C6: the hysteresis invariant is not enforced -/

/-- C6 (code bug evidence): the Animal constructor accepts the inverted
configuration fleeDistance 30 / safeDistance 5 without rejection or flag:
it returns a functioning IDLE animal whose safeDistance is strictly below
its fleeDistance, the oscillation-prone shape the spec forbids. -/
theorem animal_constructor_accepts_bad_hysteresis :
    (mkAnimal (0, 0, 0) badAnimalOptions).safeDistance <
      (mkAnimal (0, 0, 0) badAnimalOptions).fleeDistance ∧
    (mkAnimal (0, 0, 0) badAnimalOptions).state = AnimalState.idle := by
  constructor
  · norm_num [mkAnimal, badAnimalOptions, jsOrDefault]
  · rfl

/-! ## C7: the flee state machine transitions -/

/-- The idle timer does not change the flee threshold. -/
theorem updateIdle_fleeDistance (delta : ℝ) (a : Animal) :
    (updateIdle delta a).fleeDistance = a.fleeDistance := by
  unfold updateIdle
  dsimp only
  split <;> rfl

/-- The idle timer does not move the animal. -/
theorem updateIdle_pos (delta : ℝ) (a : Animal) :
    (updateIdle delta a).pos = a.pos := by
  unfold updateIdle
  dsimp only
  split <;> rfl

/-- C7: a reachable player strictly closer than fleeDistance flips an IDLE
animal to FLEEING in one tick and points fleeDirection along the
normalised vector from the player to the animal (directly away); a
FLEEING animal whose start-of-tick distance exceeds safeDistance is back
in IDLE after that tick. -/
theorem animal_state_transitions (terrain : ℝ → ℝ → ℝ) (delta : ℝ) (p : V3)
    (a : Animal) :
    (a.state = AnimalState.idle → v3dist a.pos p < a.fleeDistance →
      (Animal.update terrain delta (some p) a).state = AnimalState.fleeing ∧
      (Animal.update terrain delta (some p) a).fleeDirection =
        v3normalize (v3sub a.pos p)) ∧
    (a.state = AnimalState.fleeing → a.safeDistance < v3dist a.pos p →
      (Animal.update terrain delta (some p) a).state = AnimalState.idle) := by
  constructor
  · intro hs hd
    unfold Animal.update
    rw [hs]
    dsimp only
    rw [updateIdle_fleeDistance, if_pos hd]
    exact ⟨rfl, by rw [startFleeing, updateIdle_pos]⟩
  · intro hs hd
    unfold Animal.update
    rw [hs]
    dsimp only
    have hd2 : v3dist a.pos p > (updateFleeing terrain delta p a).safeDistance := hd
    rw [if_pos hd2]

/-- Witness for C7: the rabbit at the origin with a player 4 units away
(4 < 6 = fleeDistance) starts fleeing directly away in one tick, and the
fleeing rabbit with the player 200 units away (200 > 15 = safeDistance)
is idle after one tick. -/
theorem animal_state_transitions_witness :
    (Animal.update (fun _ _ => 0) (1/10) (some (0, 0, 4)) rabbitAt0).state =
      AnimalState.fleeing ∧
    (Animal.update (fun _ _ => 0) (1/10) (some (0, 0, 4)) rabbitAt0).fleeDirection =
      v3normalize (v3sub (0, 0, 0) (0, 0, 4)) ∧
    (Animal.update (fun _ _ => 0) (1/10) (some (0, 0, 200)) fleeingRabbit).state =
      AnimalState.idle := by
  have hd4 : v3dist ((0 : ℝ), (0 : ℝ), (0 : ℝ)) ((0 : ℝ), (0 : ℝ), (4 : ℝ)) = 4 := by
    unfold v3dist v3len v3sub
    norm_num
    rw [show (16 : ℝ) = 4 ^ 2 by norm_num, Real.sqrt_sq (by norm_num : (0 : ℝ) ≤ 4)]
  have hd200 : v3dist ((0 : ℝ), (0 : ℝ), (0 : ℝ)) ((0 : ℝ), (0 : ℝ), (200 : ℝ)) = 200 := by
    unfold v3dist v3len v3sub
    norm_num
    rw [show (40000 : ℝ) = 200 ^ 2 by norm_num, Real.sqrt_sq (by norm_num : (0 : ℝ) ≤ 200)]
  have hlt : v3dist rabbitAt0.pos ((0 : ℝ), (0 : ℝ), (4 : ℝ)) < rabbitAt0.fleeDistance := by
    show v3dist ((0 : ℝ), (0 : ℝ), (0 : ℝ)) ((0 : ℝ), (0 : ℝ), (4 : ℝ)) <
      ((jsOrDefault (some 6) 10 : ℚ) : ℝ)
    rw [hd4]
    norm_num [jsOrDefault]
  have hgt : fleeingRabbit.safeDistance <
      v3dist fleeingRabbit.pos ((0 : ℝ), (0 : ℝ), (200 : ℝ)) := by
    show ((jsOrDefault (some 15) 20 : ℚ) : ℝ) <
      v3dist ((0 : ℝ), (0 : ℝ), (0 : ℝ)) ((0 : ℝ), (0 : ℝ), (200 : ℝ))
    rw [hd200]
    norm_num [jsOrDefault]
  have h1 := (animal_state_transitions (fun _ _ => 0) (1/10) ((0, 0, 4) : V3) rabbitAt0).1
    rfl hlt
  have h2 := (animal_state_transitions (fun _ _ => 0) (1/10) ((0, 0, 200) : V3) fleeingRabbit).2
    rfl hgt
  exact ⟨h1.1, h1.2, h2⟩

end Survivor
